import Mathlib

/-!
Shallow embedding of the sparse-set entity-component store of the `ignition`
repository (`src/life/genesis.rs`), together with proofs of the specified
properties.  Rust `Vec<T>` becomes `List`, `usize` becomes `Nat`, the `i32`
sparse entries become `Int` (with `-1` as the "absent" marker), and operations
that can panic return `Option`.
-/

namespace Ignition

/-- Struct `ComponentPool<G>` of the `life` module.  Field names and types follow the
struct literals appearing in the tests of `src/life/genesis.rs`:
`num_components`, `sparse_array : Vec<i32>`, `packed_array : Vec<usize>`,
`component_array : Vec<G>`. -/
structure ComponentPool (G : Type) where
  num_components : Nat
  sparse_array : List Int
  packed_array : List Nat
  component_array : List G
  deriving Repr, DecidableEq

namespace ComponentPool

variable {G : Type}

/-- Rust `ComponentPool::prolong_sparse_array`: if `entity + 1 > sparse_array.len()`,
`sparse_array.resize(entity + 1, -1)` (appends `-1` up to length `entity + 1`). -/
def prolong_sparse_array (entity : Nat) (sparse_array : List Int) : List Int :=
  if entity + 1 > sparse_array.length then
    sparse_array ++ List.replicate (entity + 1 - sparse_array.length) (-1)
  else
    sparse_array

/-- Rust `ComponentPool::add_entity_to_sparse_array`: prolong, then
`sparse_array[entity] = value as i32`. -/
def add_entity_to_sparse_array (entity value : Nat) (sparse_array : List Int) : List Int :=
  (prolong_sparse_array entity sparse_array).set entity (value : Int)

/-- Rust `ComponentPool::new_with_entity`. -/
def new_with_entity (entity : Nat) (component : G) : ComponentPool G :=
  { num_components := 1
    sparse_array := add_entity_to_sparse_array entity 0 []
    packed_array := [entity]
    component_array := [component] }

/-- The sparse entry for an entity; out-of-range reads give the absent
marker `-1` (matching the "absent" default of the auto-grown array). -/
def sparse_at (p : ComponentPool G) (entity : Nat) : Int :=
  p.sparse_array.getD entity (-1)

/-- Modelled from the spec: `has(e) -> bool` is "true iff `e` maps to a
non-absent slot" (§4.2); the body of `ComponentPool::has_component` is not in
the provided sources, only its call sites in `genesis.rs`. -/
def has_component (p : ComponentPool G) (entity : Nat) : Bool :=
  p.sparse_at entity != -1

/-- Rust `ComponentPool::assign_component`: if the entity already has a component,
overwrite `component_array[sparse_array[entity]]` in place; otherwise record
`num_components` as the entity's slot in the sparse array and push onto both
dense arrays. -/
def assign_component (p : ComponentPool G) (entity : Nat) (component : G) : ComponentPool G :=
  if p.has_component entity then
    { p with component_array := p.component_array.set (p.sparse_at entity).toNat component }
  else
    { num_components := p.num_components + 1
      sparse_array := add_entity_to_sparse_array entity p.num_components p.sparse_array
      packed_array := p.packed_array ++ [entity]
      component_array := p.component_array ++ [component] }

/-- Modelled from the spec: `get(e)` returns a reference to
`dense_values[sparse_index[e]]` and fails with `NotFound` if `!has(e)` (§4.2);
the body of the pool's `get` is not in the provided sources. -/
def get_component (p : ComponentPool G) (entity : Nat) : Option G :=
  if p.has_component entity then
    p.component_array[(p.sparse_at entity).toNat]?
  else
    none

end ComponentPool

/-- The entity-allocator part of `Scene`: the `available_entities : Vec<usize>`
field.  Index 0 is the high-water counter; the tail is the free-list of
recycled ids. -/
structure Scene where
  available_entities : List Nat
  deriving Repr, DecidableEq

namespace Scene

/-- Rust `Scene::new()` sets `available_entities: vec![0]`. -/
def new : Scene := ⟨[0]⟩

/-- Rust `Scene::generate_new_entity`: reads `available_entities[0]`, increments it
in place, and returns the read value.  The indexing panics on an empty vector,
modelled as `none`. -/
def generate_new_entity (s : Scene) : Option (Nat × Scene) :=
  match s.available_entities with
  | [] => none
  | id :: rest => some (id, ⟨(id + 1) :: rest⟩)

/-- Rust `Scene::use_recycled_entity`: `available_entities.pop().unwrap()`.  The
`unwrap` panics on an empty vector, modelled as `none`. -/
def use_recycled_entity (s : Scene) : Option (Nat × Scene) :=
  match s.available_entities.getLast? with
  | none => none
  | some id => some (id, ⟨s.available_entities.dropLast⟩)

/-- Rust `Scene::entity`: dispatches on `available_entities.len() == 1`. -/
def entity (s : Scene) : Option (Nat × Scene) :=
  if s.available_entities.length = 1 then
    s.generate_new_entity
  else
    s.use_recycled_entity

/-- Modelled from the spec: `delete_entity` / `recycle(e)` "pushes `e` onto the
free-list" (§4.1); `Scene::delete` itself is not in the provided sources, only
its call in the recycling test of `genesis.rs`. -/
def delete (s : Scene) (e : Nat) : Scene :=
  ⟨s.available_entities ++ [e]⟩

/-- Runs `n` successive `entity()` calls, collecting the returned ids in
order; `none` if any call panics. -/
def run_entities : Nat → Scene → Option (List Nat × Scene)
  | 0, s => some ([], s)
  | n + 1, s =>
    match s.entity with
    | none => none
    | some (id, s') =>
      match run_entities n s' with
      | none => none
      | some (ids, s'') => some (id :: ids, s'')

end Scene

/-- States reachable from `Scene::new()` by any sequence of successful
`entity()` calls and `delete` calls. -/
inductive Reachable : Scene → Prop
  | new : Reachable Scene.new
  | entity {s s' : Scene} {id : Nat} : Reachable s → s.entity = some (id, s') → Reachable s'
  | delete {s : Scene} (e : Nat) : Reachable s → Reachable (s.delete e)

/- ## Allocator lemmas -/

theorem Scene.run_entities_singleton (n k : Nat) :
    Scene.run_entities n ⟨[k]⟩ = some (List.range' k n, ⟨[k + n]⟩) := by
  induction n generalizing k with
  | zero => simp [Scene.run_entities, List.range']
  | succ n ih =>
    have h1 : Scene.entity ⟨[k]⟩ = some (k, ⟨[k + 1]⟩) := by
      simp [Scene.entity, Scene.generate_new_entity]
    simp only [Scene.run_entities, h1, ih (k + 1)]
    simp [List.range']
    omega

/-- C4: On a newly created Scene with no deletions, `N` successive
`entity()` calls succeed and return exactly the ids `0, 1, ..., N-1` in
order. -/
theorem entity_monotonic_fresh (n : Nat) :
    Scene.run_entities n Scene.new = some (List.range n, ⟨[n]⟩) := by
  rw [List.range_eq_range']
  simpa using Scene.run_entities_singleton n 0

/- Reachable states keep `available_entities` non-empty. -/

theorem Reachable.nonempty {s : Scene} (h : Reachable s) :
    s.available_entities ≠ [] := by
  induction h with
  | new => simp [Scene.new]
  | entity hr hstep ih =>
    rename_i s s' id
    unfold Scene.entity at hstep
    split at hstep
    · unfold Scene.generate_new_entity at hstep
      rename_i hlen
      match hs : s.available_entities with
      | [] => rw [hs] at hlen; simp at hlen
      | a :: rest =>
        rw [hs] at hstep
        simp at hstep
        obtain ⟨_, hs'⟩ := hstep
        rw [← hs']
        simp
    · unfold Scene.use_recycled_entity at hstep
      rename_i hlen
      match hl : s.available_entities.getLast? with
      | none => rw [hl] at hstep; simp at hstep
      | some id' =>
        rw [hl] at hstep
        simp at hstep
        obtain ⟨_, hs'⟩ := hstep
        rw [← hs']
        intro hd
        have h0 : s.available_entities.length ≠ 0 := by
          simpa [List.length_eq_zero] using ih
        have h2 : s.available_entities.length ≠ 1 := hlen
        have h3 := congrArg List.length hd
        simp [List.length_dropLast] at h3
        omega
  | delete e hr ih =>
    simp [Scene.delete]

/-- C10: Starting from `Scene::new()`, across any sequence of `entity()`
and `delete` calls the allocator's `available_entities` vector is never empty,
so index 0 (the high-water counter) always exists and the next `entity()`
call succeeds: neither the direct index access in `generate_new_entity` nor
the pop-then-unwrap in `use_recycled_entity` panics when reached through the
`entity()` dispatcher. -/
theorem available_entities_never_empty {s : Scene} (h : Reachable s) :
    s.available_entities ≠ [] ∧ (∃ r, s.entity = some r) := by
  refine ⟨h.nonempty, ?_⟩
  unfold Scene.entity
  split
  · unfold Scene.generate_new_entity
    match hs : s.available_entities with
    | [] => exact absurd hs h.nonempty
    | a :: rest => exact ⟨_, rfl⟩
  · unfold Scene.use_recycled_entity
    match hl : s.available_entities.getLast? with
    | none =>
      exact absurd (List.getLast?_eq_none_iff.mp hl) h.nonempty
    | some id => exact ⟨_, rfl⟩

/-- Witness for `available_entities_never_empty` at the initial state. -/
theorem available_entities_never_empty_witness :
    Scene.new.available_entities ≠ [] ∧ (∃ r, Scene.new.entity = some r) :=
  available_entities_never_empty Reachable.new

/-- C5: If the free-list is non-empty (`available_entities` has length at
least 2) the next `entity()` call takes the recycled branch and returns the
last (= most recently freed) id, LIFO; in particular deleting `e` and then
creating returns exactly `e` and restores the allocator state. -/
theorem recycle_before_fresh (s : Scene) (e : Nat) (h : s.available_entities ≠ []) :
    (s.delete e).entity = some (e, s) ∧
    ∀ t : Scene, 2 ≤ t.available_entities.length →
      t.entity = t.use_recycled_entity ∧
      t.use_recycled_entity =
        t.available_entities.getLast?.map (fun id => (id, ⟨t.available_entities.dropLast⟩)) := by
  constructor
  · unfold Scene.delete Scene.entity
    have hlen : (s.available_entities ++ [e]).length ≠ 1 := by
      simp
      intro h1
      exact absurd h1 h
    rw [if_neg (by simpa using hlen)]
    unfold Scene.use_recycled_entity
    simp
  · intro t ht
    constructor
    · unfold Scene.entity
      rw [if_neg (by omega)]
    · unfold Scene.use_recycled_entity
      match hl : t.available_entities.getLast? with
      | none =>
        have := List.getLast?_eq_none_iff.mp hl
        rw [this] at ht; simp at ht
      | some id => simp

/-- Witness for `recycle_before_fresh`: create, delete, create returns the
same id `0` starting from `Scene::new()`. -/
theorem recycle_before_fresh_witness :
    (Scene.mk [1]).available_entities ≠ [] ∧
    ((Scene.mk [1]).delete 0).entity = some (0, Scene.mk [1]) :=
  ⟨by decide, (recycle_before_fresh (Scene.mk [1]) 0 (by decide)).1⟩

namespace ComponentPool

variable {G : Type}

/-- Sparse-set invariant of a component pool: the component count and the two
dense arrays agree in length with the number of non-absent sparse entries, the
sparse entry of an owning entity points at a dense slot owning it, and dense
owners point back at their sparse entries. -/
def Inv (p : ComponentPool G) : Prop :=
  p.num_components = p.packed_array.length ∧
  p.component_array.length = p.packed_array.length ∧
  p.sparse_array.countP (fun x => x != -1) = p.packed_array.length ∧
  (∀ e : Nat, p.sparse_at e ≠ -1 →
      0 ≤ p.sparse_at e ∧ p.packed_array[(p.sparse_at e).toNat]? = some e) ∧
  (∀ (i e : Nat), p.packed_array[i]? = some e → p.sparse_at e = (i : Int))

theorem length_prolong (e : Nat) (sa : List Int) :
    (prolong_sparse_array e sa).length = max sa.length (e + 1) := by
  unfold prolong_sparse_array
  split <;> simp <;> omega

theorem getElem?_prolong (e : Nat) (sa : List Int) (i : Nat) :
    (prolong_sparse_array e sa)[i]? =
      if i < sa.length then sa[i]? else if i < e + 1 then some (-1) else none := by
  unfold prolong_sparse_array
  split
  · rename_i hgt
    rw [List.getElem?_append]
    split
    · rfl
    · rename_i hi
      rw [List.getElem?_replicate]
      push_neg at hi
      by_cases hlt : i < e + 1
      · rw [if_pos (by omega), if_pos hlt]
      · rw [if_neg (by omega), if_neg hlt]
  · rename_i hle
    push_neg at hle
    by_cases hi : i < sa.length
    · rw [if_pos hi]
    · rw [if_neg hi, List.getElem?_eq_none (by omega)]
      rw [if_neg (by omega)]

theorem length_add (e v : Nat) (sa : List Int) :
    (add_entity_to_sparse_array e v sa).length = max sa.length (e + 1) := by
  unfold add_entity_to_sparse_array
  rw [List.length_set, length_prolong]

theorem getD_add (e v : Nat) (sa : List Int) (i : Nat) :
    (add_entity_to_sparse_array e v sa).getD i (-1) =
      if i = e then (v : Int) else sa.getD i (-1) := by
  unfold add_entity_to_sparse_array
  rw [List.getD_eq_getElem?_getD, List.getD_eq_getElem?_getD]
  by_cases hie : i = e
  · subst hie
    rw [List.getElem?_set_self (by rw [length_prolong]; omega), if_pos rfl]
    rfl
  · rw [List.getElem?_set_ne (fun h => hie h.symm), if_neg hie, getElem?_prolong]
    by_cases hi : i < sa.length
    · rw [if_pos hi]
    · rw [if_neg hi, List.getElem?_eq_none (by omega)]
      by_cases hlt : i < e + 1
      · rw [if_pos hlt]; rfl
      · rw [if_neg hlt]

theorem sparse_at_add (p : ComponentPool G) (e v i : Nat) :
    (List.getD (add_entity_to_sparse_array e v p.sparse_array) i (-1)) =
      if i = e then (v : Int) else p.sparse_at i := by
  rw [getD_add]; rfl

theorem sparse_at_new (entity : Nat) (c : G) (i : Nat) :
    (new_with_entity entity c).sparse_at i = if i = entity then 0 else -1 := by
  show (add_entity_to_sparse_array entity 0 []).getD i (-1) = _
  rw [getD_add]
  by_cases h : i = entity
  · rw [if_pos h, if_pos h]; rfl
  · rw [if_neg h, if_neg h]; rfl

theorem Inv_new (entity : Nat) (c : G) : Inv (new_with_entity entity c) := by
  have hsparse : ∀ i : Nat,
      (new_with_entity entity c).sparse_at i =
        if i = entity then 0 else -1 := sparse_at_new entity c
  refine ⟨rfl, rfl, ?_, ?_, ?_⟩
  · show List.countP _ (add_entity_to_sparse_array entity 0 []) = 1
    unfold add_entity_to_sparse_array prolong_sparse_array
    simp only [List.length_nil, List.nil_append, Nat.sub_zero,
      gt_iff_lt, Nat.zero_lt_succ, if_pos]
    rw [List.countP_set _ _ _ _ (by simp)]
    simp
  · intro e he
    rw [hsparse] at he ⊢
    by_cases h : e = entity
    · rw [if_pos h]
      subst h
      simp [new_with_entity]
    · rw [if_neg h] at he; simp at he
  · intro i e hie
    show (new_with_entity entity c).sparse_at e = _
    rw [hsparse]
    have : i < 1 := by
      by_contra hge
      rw [List.getElem?_eq_none (by simp [new_with_entity]; omega)] at hie
      simp at hie
    interval_cases i
    simp [new_with_entity] at hie
    rw [if_pos hie.symm]
    rfl

theorem Inv_assign (p : ComponentPool G) (h : Inv p) (entity : Nat) (c : G) :
    Inv (p.assign_component entity c) := by
  obtain ⟨hnum, hcomp, hcount, hfwd, hrev⟩ := h
  unfold assign_component
  by_cases hhas : p.has_component entity
  · rw [if_pos hhas]
    exact ⟨hnum, by simpa using hcomp, hcount, hfwd, hrev⟩
  · rw [if_neg hhas]
    have habs : p.sparse_at entity = -1 := by
      unfold has_component at hhas
      simpa using hhas
    have hsa : ∀ i : Nat,
        (List.getD (add_entity_to_sparse_array entity p.num_components p.sparse_array) i (-1)) =
          if i = entity then (p.num_components : Int) else p.sparse_at i :=
      fun i => sparse_at_add p entity p.num_components i
    refine ⟨by simp [hnum], by simp [hcomp], ?_, ?_, ?_⟩
    · show List.countP _ (add_entity_to_sparse_array entity p.num_components p.sparse_array) = _
      unfold add_entity_to_sparse_array
      have hlt : entity < (prolong_sparse_array entity p.sparse_array).length := by
        rw [length_prolong]; omega
      rw [List.countP_set _ _ _ _ hlt]
      have hold : (prolong_sparse_array entity p.sparse_array)[entity] = -1 := by
        have := getElem?_prolong entity p.sparse_array entity
        rw [List.getElem?_eq_getElem hlt] at this
        by_cases hin : entity < p.sparse_array.length
        · rw [if_pos hin, List.getElem?_eq_getElem hin] at this
          have : p.sparse_array[entity] = -1 := by
            have h2 : p.sparse_at entity = p.sparse_array[entity] := by
              unfold sparse_at
              rw [List.getD_eq_getElem?_getD, List.getElem?_eq_getElem hin]
              rfl
            rw [h2] at habs
            exact habs
          simp_all
        · rw [if_neg hin, if_pos (by omega)] at this
          simp_all
      have hcp : List.countP (fun x => x != -1) (prolong_sparse_array entity p.sparse_array) =
          List.countP (fun x => x != -1) p.sparse_array := by
        unfold prolong_sparse_array
        split
        · rw [List.countP_append]; simp
        · rfl
      rw [hold, hcp, hcount]
      simp
    · intro e
      simp only [sparse_at]
      rw [hsa]
      by_cases heq : e = entity
      · subst heq
        rw [if_pos rfl]
        intro _
        refine ⟨Int.ofNat_nonneg _, ?_⟩
        have htn : ((p.num_components : Int)).toNat = p.packed_array.length := by
          simp [hnum]
        rw [htn]
        simp
      · rw [if_neg heq]
        intro he
        obtain ⟨hge, hpt⟩ := hfwd e he
        refine ⟨hge, ?_⟩
        have hidx : (p.sparse_at e).toNat < p.packed_array.length := by
          by_contra hc
          rw [List.getElem?_eq_none (by omega)] at hpt
          simp at hpt
        rw [List.getElem?_append_left hidx]
        exact hpt
    · intro i e hie
      simp only [sparse_at]
      rw [hsa]
      simp only [] at hie
      by_cases hi : i < p.packed_array.length
      · rw [List.getElem?_append_left hi] at hie
        have hse := hrev i e hie
        have hne : e ≠ entity := by
          intro hc
          rw [hc] at hse
          rw [hse] at habs
          omega
        rw [if_neg hne]
        exact hse
      · have hi2 : i < p.packed_array.length + 1 := by
          by_contra hc
          rw [List.getElem?_eq_none (by simp; omega)] at hie
          simp at hie
        have hieq : i = p.packed_array.length := by omega
        subst hieq
        rw [List.getElem?_append_right (le_refl _)] at hie
        simp at hie
        rw [if_pos hie.symm, hnum]

/-- Folds a sequence of `assign_component` calls over a pool. -/
def apply_assigns (p : ComponentPool G) : List (Nat × G) → ComponentPool G
  | [] => p
  | (e, c) :: ops => apply_assigns (p.assign_component e c) ops

theorem Inv_apply_assigns (p : ComponentPool G) (h : Inv p) (ops : List (Nat × G)) :
    Inv (apply_assigns p ops) := by
  induction ops generalizing p with
  | nil => exact h
  | cons op ops ih => exact ih _ (Inv_assign p h op.1 op.2)

end ComponentPool

/-- C1: After creating a pool with `new_with_entity` and any sequence of
`assign_component` calls, the component count equals the length of the dense
value array and of the dense owner array and the number of non-absent sparse
entries, and every entity with a non-absent sparse entry `i` is the owner
recorded at dense slot `i`. -/
theorem pool_invariants {G : Type} (entity : Nat) (c : G) (ops : List (Nat × G)) :
    (ComponentPool.apply_assigns (ComponentPool.new_with_entity entity c) ops).num_components =
      (ComponentPool.apply_assigns (ComponentPool.new_with_entity entity c) ops).component_array.length ∧
    (ComponentPool.apply_assigns (ComponentPool.new_with_entity entity c) ops).component_array.length =
      (ComponentPool.apply_assigns (ComponentPool.new_with_entity entity c) ops).packed_array.length ∧
    (ComponentPool.apply_assigns (ComponentPool.new_with_entity entity c) ops).packed_array.length =
      (ComponentPool.apply_assigns (ComponentPool.new_with_entity entity c) ops).sparse_array.countP
        (fun x => x != -1) ∧
    ∀ e : Nat,
      (ComponentPool.apply_assigns (ComponentPool.new_with_entity entity c) ops).sparse_at e ≠ -1 →
        ((ComponentPool.apply_assigns (ComponentPool.new_with_entity entity c) ops)).packed_array[
          ((ComponentPool.apply_assigns (ComponentPool.new_with_entity entity c) ops).sparse_at e).toNat]? =
          some e := by
  obtain ⟨h1, h2, h3, h4, h5⟩ :=
    ComponentPool.Inv_apply_assigns _ (ComponentPool.Inv_new entity c) ops
  exact ⟨h1.trans h2.symm, h2, h3.symm, fun e he => (h4 e he).2⟩

namespace ComponentPool

variable {G : Type}

theorem get_component_new (entity : Nat) (c : G) :
    (new_with_entity entity c).get_component entity = some c := by
  unfold get_component
  rw [if_pos (by simp [has_component, sparse_at_new])]
  rw [sparse_at_new, if_pos rfl]
  rfl

theorem get_component_eq (p : ComponentPool G) (e : Nat) :
    p.get_component e =
      if p.sparse_at e != -1 then p.component_array[(p.sparse_at e).toNat]? else none := rfl

theorem get_assign (p : ComponentPool G) (h : Inv p) (e : Nat) (v : G) :
    (p.assign_component e v).get_component e = some v := by
  obtain ⟨hnum, hcomp, hcount, hfwd, hrev⟩ := h
  unfold assign_component
  by_cases hhas : p.has_component e
  · rw [if_pos hhas]
    have habs : p.sparse_at e ≠ -1 := by
      unfold has_component at hhas
      simpa using hhas
    obtain ⟨hge, hpt⟩ := hfwd e habs
    have hidx : (p.sparse_at e).toNat < p.component_array.length := by
      rw [hcomp]
      by_contra hc
      rw [List.getElem?_eq_none (by omega)] at hpt
      simp at hpt
    simp only [get_component_eq, sparse_at]
    rw [if_pos (show (p.sparse_array.getD e (-1) != -1) = true from hhas)]
    exact List.getElem?_set_self hidx
  · rw [if_neg hhas]
    have hgd : (add_entity_to_sparse_array e p.num_components p.sparse_array).getD e (-1) =
        (p.num_components : Int) := by
      rw [getD_add, if_pos rfl]
    simp only [get_component_eq, sparse_at]
    rw [hgd]
    rw [if_pos (show ((p.num_components : Int) != -1) = true by
      simp only [bne_iff_ne, ne_eq]
      omega)]
    rw [Int.toNat_ofNat, hnum, ← hcomp]
    exact List.getElem?_concat_length _ _

end ComponentPool

/-- Rust `Scene::component`: assigns into the pool of the component's type when the
registry already has one (`component_pool_exists` / `assign_component`), else
creates a fresh pool for it (`new_component_pool` / `new_with_entity`).  The
`Option` argument stands for the registry's pool for this component type. -/
def Scene.component {G : Type} (pool : Option (ComponentPool G)) (entity : Nat) (c : G) :
    ComponentPool G :=
  match pool with
  | some p => p.assign_component entity c
  | none => ComponentPool.new_with_entity entity c

/-- C2: Assign-then-read round trip: after `component(e, v)` on a scene
whose pool for the component's type (if any) satisfies the sparse-set
invariant, reading `e`'s component of that type gives back exactly `v`. -/
theorem assign_then_read {G : Type} (pool : Option (ComponentPool G)) (e : Nat) (v : G)
    (h : ∀ p, pool = some p → ComponentPool.Inv p) :
    (Scene.component pool e v).get_component e = some v := by
  match pool with
  | some p => exact ComponentPool.get_assign p (h p rfl) e v
  | none => exact ComponentPool.get_component_new e v

/-- Witness for `assign_then_read`: assigning `34` to entity `0` in a scene
without a pool for the type, then reading it back. -/
theorem assign_then_read_witness :
    (∀ p : ComponentPool Int, (none : Option (ComponentPool Int)) = some p →
      ComponentPool.Inv p) ∧
    (Scene.component (none : Option (ComponentPool Int)) 0 (34 : Int)).get_component 0 =
      some 34 :=
  ⟨fun p hp => by simp at hp,
    assign_then_read (none : Option (ComponentPool Int)) 0 (34 : Int)
      (fun p hp => by simp at hp)⟩

/-- C3: Assigning to an entity that already has a component of the type
overwrites its dense slot in place: the value read back is the new one; the
component count, dense owner array and sparse array are unchanged (hence the
dense order is unchanged); the dense value array keeps its length and every
other slot; and the entity owns exactly one dense slot afterwards. -/
theorem overwrite_in_place {G : Type} (p : ComponentPool G) (h : ComponentPool.Inv p)
    (e : Nat) (v2 : G) (he : p.has_component e = true) :
    (p.assign_component e v2).get_component e = some v2 ∧
    (p.assign_component e v2).num_components = p.num_components ∧
    (p.assign_component e v2).packed_array = p.packed_array ∧
    (p.assign_component e v2).sparse_array = p.sparse_array ∧
    (p.assign_component e v2).component_array.length = p.component_array.length ∧
    (∀ j : Nat, j ≠ (p.sparse_at e).toNat →
      (p.assign_component e v2).component_array[j]? = p.component_array[j]?) ∧
    (∃ i : Nat, (p.assign_component e v2).packed_array[i]? = some e ∧
      ∀ j : Nat, (p.assign_component e v2).packed_array[j]? = some e → j = i) := by
  obtain ⟨hnum, hcomp, hcount, hfwd, hrev⟩ := h
  have habs : p.sparse_at e ≠ -1 := by
    unfold ComponentPool.has_component at he
    simpa using he
  obtain ⟨hge, hpt⟩ := hfwd e habs
  have hqn : (p.assign_component e v2).num_components = p.num_components := by
    unfold ComponentPool.assign_component
    rw [if_pos he]
  have hqp : (p.assign_component e v2).packed_array = p.packed_array := by
    unfold ComponentPool.assign_component
    rw [if_pos he]
  have hqs : (p.assign_component e v2).sparse_array = p.sparse_array := by
    unfold ComponentPool.assign_component
    rw [if_pos he]
  have hqc : (p.assign_component e v2).component_array =
      p.component_array.set (p.sparse_at e).toNat v2 := by
    unfold ComponentPool.assign_component
    rw [if_pos he]
  refine ⟨ComponentPool.get_assign p ⟨hnum, hcomp, hcount, hfwd, hrev⟩ e v2,
    hqn, hqp, hqs, by rw [hqc]; exact List.length_set .., ?_, ?_⟩
  · intro j hj
    rw [hqc]
    exact List.getElem?_set_ne (fun hc => hj hc.symm)
  · refine ⟨(p.sparse_at e).toNat, ?_, ?_⟩
    · rw [hqp]
      exact hpt
    · intro j hj
      rw [hqp] at hj
      have hse := hrev j e hj
      rw [hse]
      exact Int.toNat_ofNat j

/-- Witness for `overwrite_in_place`: the pool `new_with_entity 0 32` with
`32` overwritten by `28`, mirroring the repository's own test
`assigning_already_existing_component_does_not_add_component`. -/
theorem overwrite_in_place_witness :
    (ComponentPool.new_with_entity 0 (32 : Int)).has_component 0 = true ∧
    ((ComponentPool.new_with_entity 0 (32 : Int)).assign_component 0 28).get_component 0 =
      some 28 ∧
    ((ComponentPool.new_with_entity 0 (32 : Int)).assign_component 0 28).num_components =
      (ComponentPool.new_with_entity 0 (32 : Int)).num_components :=
  ⟨by decide,
    (overwrite_in_place (ComponentPool.new_with_entity 0 (32 : Int))
      (ComponentPool.Inv_new 0 (32 : Int)) 0 28 (by decide)).1,
    (overwrite_in_place (ComponentPool.new_with_entity 0 (32 : Int))
      (ComponentPool.Inv_new 0 (32 : Int)) 0 28 (by decide)).2.1⟩

/-- C7: Assigning to entity `k` when the sparse array is shorter than
`k + 1` grows it to exactly length `k + 1`, fills every newly created slot
with the absent marker `-1`, leaves every entry below the old length
unchanged, and prolonging never shrinks; in particular a fresh pool created
for entity `k` reports `has_component` false for every smaller id and true
for `k`. -/
theorem sparse_padding {G : Type} (k v : Nat) (sa : List Int) (c : G)
    (h : sa.length < k + 1) :
    (ComponentPool.add_entity_to_sparse_array k v sa).length = k + 1 ∧
    (∀ i, i < sa.length →
      (ComponentPool.add_entity_to_sparse_array k v sa)[i]? = sa[i]?) ∧
    (∀ i, sa.length ≤ i → i < k →
      (ComponentPool.add_entity_to_sparse_array k v sa)[i]? = some (-1)) ∧
    (∀ (e : Nat) (sa2 : List Int),
      sa2.length ≤ (ComponentPool.prolong_sparse_array e sa2).length) ∧
    (∀ j, j < k → (ComponentPool.new_with_entity k c).has_component j = false) ∧
    (ComponentPool.new_with_entity k c).has_component k = true := by
  refine ⟨?_, ?_, ?_, ?_, ?_, ?_⟩
  · rw [ComponentPool.length_add]
    omega
  · intro i hi
    unfold ComponentPool.add_entity_to_sparse_array
    rw [List.getElem?_set_ne (by omega), ComponentPool.getElem?_prolong, if_pos hi]
  · intro i hge hlt
    unfold ComponentPool.add_entity_to_sparse_array
    rw [List.getElem?_set_ne (by omega), ComponentPool.getElem?_prolong,
      if_neg (by omega), if_pos (by omega)]
  · intro e sa2
    rw [ComponentPool.length_prolong]
    omega
  · intro j hj
    simp [ComponentPool.has_component, ComponentPool.sparse_at_new, Nat.ne_of_lt hj]
  · simp [ComponentPool.has_component, ComponentPool.sparse_at_new]

/-- Witness for `sparse_padding`: assigning slot value `0` to entity `3` over
an empty sparse array, as in the pool-creation test of `genesis.rs`. -/
theorem sparse_padding_witness :
    ([] : List Int).length < 3 + 1 ∧
    (ComponentPool.add_entity_to_sparse_array 3 0 ([] : List Int)).length = 3 + 1 ∧
    (ComponentPool.new_with_entity 3 (32 : Int)).has_component 0 = false :=
  ⟨by decide, (sparse_padding 3 0 ([] : List Int) (32 : Int) (by decide)).1,
    (sparse_padding 3 0 ([] : List Int) (32 : Int) (by decide)).2.2.2.2.1 0 (by decide)⟩

/-- Modelled from the spec: `append_component`'s first branch appends the
value "to it in place" through `get_component_mut::<Vec<G>>(entity).push(component)`
(§4.4); the bodies of `component_exists` and `get_component_mut` are not in the
provided sources.  The entity's collection at dense slot `sparse_index[e]` gets
the new value pushed at its end. -/
def ComponentPool.push_component {G : Type} (p : ComponentPool (List G)) (e : Nat) (c : G) :
    ComponentPool (List G) :=
  { p with component_array :=
      (p.component_array.set (p.sparse_at e).toNat
        (p.component_array.getD (p.sparse_at e).toNat [] ++ [c])) }

/-- Rust `Scene::vectorized_component`: pushes in place when the entity already has
a collection of this type, assigns `vec![component]` when only the pool
exists, and creates the pool with `vec![component]` otherwise.  The `Option`
argument stands for the registry's `Vec<G>` pool. -/
def Scene.vectorized_component {G : Type} (pool : Option (ComponentPool (List G)))
    (e : Nat) (c : G) : ComponentPool (List G) :=
  match pool with
  | some p => if p.has_component e then p.push_component e c else p.assign_component e [c]
  | none => ComponentPool.new_with_entity e [c]

theorem Scene.vectorized_component_some_pos {G : Type} (p : ComponentPool (List G))
    (e : Nat) (c : G) (h : p.has_component e = true) :
    Scene.vectorized_component (some p) e c = p.push_component e c := by
  simp only [Scene.vectorized_component]
  rw [if_pos h]

theorem Scene.vectorized_component_some_neg {G : Type} (p : ComponentPool (List G))
    (e : Nat) (c : G) (h : p.has_component e = false) :
    Scene.vectorized_component (some p) e c = p.assign_component e [c] := by
  simp only [Scene.vectorized_component]
  rw [if_neg (by rw [h]; simp)]

/-- C6: Two appends to entity `e1` followed by two appends to a distinct
entity `e2` leave exactly the collections `[a, b]` for `e1` and `[c, d]` for
`e2`, each retrievable, with the dense array grouping the values per entity in
insertion order. -/
theorem append_semantics {G : Type} (e1 e2 : Nat) (hne : e1 ≠ e2) (a b c d : G) :
    (Scene.vectorized_component (some (Scene.vectorized_component (some
        (Scene.vectorized_component (some (Scene.vectorized_component none e1 a)) e1 b))
        e2 c)) e2 d).get_component e1 = some [a, b] ∧
    (Scene.vectorized_component (some (Scene.vectorized_component (some
        (Scene.vectorized_component (some (Scene.vectorized_component none e1 a)) e1 b))
        e2 c)) e2 d).get_component e2 = some [c, d] ∧
    (Scene.vectorized_component (some (Scene.vectorized_component (some
        (Scene.vectorized_component (some (Scene.vectorized_component none e1 a)) e1 b))
        e2 c)) e2 d).component_array = [[a, b], [c, d]] ∧
    (Scene.vectorized_component (some (Scene.vectorized_component (some
        (Scene.vectorized_component (some (Scene.vectorized_component none e1 a)) e1 b))
        e2 c)) e2 d).packed_array = [e1, e2] := by
  have hne21 : ¬ (e2 = e1) := fun hc => hne hc.symm
  have f1 : (ComponentPool.add_entity_to_sparse_array e1 0 ([] : List Int)).getD e1 (-1) = 0 := by
    rw [ComponentPool.getD_add, if_pos rfl]
    decide
  have f2 : (ComponentPool.add_entity_to_sparse_array e1 0 ([] : List Int)).getD e2 (-1) = -1 := by
    rw [ComponentPool.getD_add, if_neg hne21, List.getD_nil]
  have f3 : (ComponentPool.add_entity_to_sparse_array e2 1
      (ComponentPool.add_entity_to_sparse_array e1 0 ([] : List Int))).getD e2 (-1) = 1 := by
    rw [ComponentPool.getD_add, if_pos rfl]
    decide
  have f4 : (ComponentPool.add_entity_to_sparse_array e2 1
      (ComponentPool.add_entity_to_sparse_array e1 0 ([] : List Int))).getD e1 (-1) = 0 := by
    rw [ComponentPool.getD_add, if_neg hne, f1]
  have hhas1 : (ComponentPool.mk 1 (ComponentPool.add_entity_to_sparse_array e1 0 [])
      [e1] [[a]]).has_component e1 = true := by
    simp only [ComponentPool.has_component, ComponentPool.sparse_at]
    rw [f1]
    rfl
  have hhas2 : (ComponentPool.mk 1 (ComponentPool.add_entity_to_sparse_array e1 0 [])
      [e1] [[a, b]]).has_component e2 = false := by
    simp only [ComponentPool.has_component, ComponentPool.sparse_at]
    rw [f2]
    rfl
  have hhas3 : (ComponentPool.mk 2 (ComponentPool.add_entity_to_sparse_array e2 1
      (ComponentPool.add_entity_to_sparse_array e1 0 [])) [e1, e2]
      [[a, b], [c]]).has_component e2 = true := by
    simp only [ComponentPool.has_component, ComponentPool.sparse_at]
    rw [f3]
    rfl
  have hq1 : Scene.vectorized_component none e1 a =
      ComponentPool.mk 1 (ComponentPool.add_entity_to_sparse_array e1 0 []) [e1] [[a]] := rfl
  have hq2 : Scene.vectorized_component
      (some (ComponentPool.mk 1 (ComponentPool.add_entity_to_sparse_array e1 0 []) [e1] [[a]]))
      e1 b =
      ComponentPool.mk 1 (ComponentPool.add_entity_to_sparse_array e1 0 []) [e1] [[a, b]] := by
    rw [Scene.vectorized_component_some_pos _ _ _ hhas1]
    simp only [ComponentPool.push_component, ComponentPool.sparse_at]
    rw [f1]
    simp
  have hq3 : Scene.vectorized_component
      (some (ComponentPool.mk 1 (ComponentPool.add_entity_to_sparse_array e1 0 []) [e1]
        [[a, b]])) e2 c =
      ComponentPool.mk 2 (ComponentPool.add_entity_to_sparse_array e2 1
        (ComponentPool.add_entity_to_sparse_array e1 0 [])) [e1, e2] [[a, b], [c]] := by
    rw [Scene.vectorized_component_some_neg _ _ _ hhas2]
    simp only [ComponentPool.assign_component]
    rw [if_neg (by rw [hhas2]; simp)]
    simp
  have hq4 : Scene.vectorized_component
      (some (ComponentPool.mk 2 (ComponentPool.add_entity_to_sparse_array e2 1
        (ComponentPool.add_entity_to_sparse_array e1 0 [])) [e1, e2] [[a, b], [c]])) e2 d =
      ComponentPool.mk 2 (ComponentPool.add_entity_to_sparse_array e2 1
        (ComponentPool.add_entity_to_sparse_array e1 0 [])) [e1, e2] [[a, b], [c, d]] := by
    rw [Scene.vectorized_component_some_pos _ _ _ hhas3]
    simp only [ComponentPool.push_component, ComponentPool.sparse_at]
    rw [f3]
    simp
  rw [hq1, hq2, hq3, hq4]
  refine ⟨?_, ?_, rfl, rfl⟩
  · rw [ComponentPool.get_component_eq]
    simp only [ComponentPool.sparse_at]
    rw [f4]
    rfl
  · rw [ComponentPool.get_component_eq]
    simp only [ComponentPool.sparse_at]
    rw [f3]
    rfl

/-- Witness for `append_semantics`: the spec's own example, entities `0` and
`1` with collections `[34, 59]` and `[63, 16]`. -/
theorem append_semantics_witness :
    (0 : Nat) ≠ 1 ∧
    (Scene.vectorized_component (some (Scene.vectorized_component (some
        (Scene.vectorized_component (some (Scene.vectorized_component none 0 (34 : Int))) 0 59))
        1 63)) 1 16).get_component 0 = some [34, 59] :=
  ⟨by decide, (append_semantics 0 1 (by decide) (34 : Int) 59 63 16).1⟩

/-- The Scene's type-keyed pool registry
(`component_pools: HashMap<TypeId, Box<dyn ...>>`): a map from type tags to
the pool (if any) for that type, where `V` gives each tag's component value
type.  Distinct Rust types have distinct `TypeId`s, modelled as distinct
tags. -/
def Registry (V : Nat → Type) := (t : Nat) → Option (ComponentPool (V t))

/-- Rust `Scene::component::<G>` seen through the registry: the pool stored under
`G`'s type tag is assigned into or created (`Scene.component`), and the result
is stored back under that same tag; every other key is untouched, as
`HashMap::insert` / typed `get_mut` only touch the key `TypeId::of::<G>`. -/
def Registry.component {V : Nat → Type} (reg : Registry V) (t : Nat) (e : Nat) (v : V t) :
    Registry V :=
  Function.update reg t (some (Scene.component (reg t) e v))

/-- Runs a sequence of single-type assignments `(entity, value)` under type
tag `t` through the registry. -/
def Registry.apply_components {V : Nat → Type} (reg : Registry V) (t : Nat) :
    List (Nat × V t) → Registry V
  | [] => reg
  | (e, v) :: ops => Registry.apply_components (reg.component t e v) t ops

/-- The same sequence of assignments against a single typed pool. -/
def Scene.apply_components {G : Type} (pool : Option (ComponentPool G)) :
    List (Nat × G) → Option (ComponentPool G)
  | [] => pool
  | (e, v) :: ops => Scene.apply_components (some (Scene.component pool e v)) ops

/-- C8: Cross-type isolation: any sequence of assignments under type tag
`t` leaves the pool of every other tag `u` exactly as it was, and the pool
under `t` is exactly what the single-typed pool semantics produces from the
`t`-assignments alone — so retrieving all values of type `t` can only yield
values assigned under `t`. -/
theorem cross_type_isolation {V : Nat → Type} (reg : Registry V) (t u : Nat) (h : t ≠ u)
    (ops : List (Nat × V t)) :
    (reg.apply_components t ops) u = reg u ∧
    (reg.apply_components t ops) t = Scene.apply_components (reg t) ops := by
  induction ops generalizing reg with
  | nil =>
    simp only [Registry.apply_components, Scene.apply_components]
    exact ⟨trivial, trivial⟩
  | cons op ops ih =>
    obtain ⟨e, v⟩ := op
    simp only [Registry.apply_components, Scene.apply_components]
    obtain ⟨ih1, ih2⟩ := ih (reg.component t e v)
    refine ⟨?_, ?_⟩
    · rw [ih1]
      exact Function.update_noteq (fun hc => h hc.symm) _ _
    · rw [ih2]
      rw [show (reg.component t e v) t = some (Scene.component (reg t) e v) from
        Function.update_same _ _ _]

/-- Witness for `cross_type_isolation`: one assignment under tag `0` on an
empty registry leaves tag `1` without a pool. -/
theorem cross_type_isolation_witness :
    (0 : Nat) ≠ 1 ∧
    (Registry.apply_components (V := fun _ => Int) (fun _ => none) 0 [(0, 34)]) 1 =
      (fun _ => none : Registry (fun _ => Int)) 1 :=
  ⟨by decide,
    (cross_type_isolation (V := fun _ => Int) (fun _ => none) 0 1 (by decide) [(0, 34)]).1⟩

namespace ComponentPool

variable {G : Type}

/-- Modelled from the spec: `remove(e)` — "let `i = sparse_index[e]`; swap
`dense_values[i]`/`dense_owners[i]` with the last element, pop the last
element, update `sparse_index` of the entity that was moved into slot `i`,
then set `sparse_index[e]` to absent", and a no-op when `!has(e)` (§4.2).
The removal code itself is not among the provided sources.  Swap-then-pop is
expressed as overwriting slot `i` with the last element and dropping the last
slot. -/
def remove_component (p : ComponentPool G) (e : Nat) : ComponentPool G :=
  if p.has_component e then
    match p.packed_array.getLast?, p.component_array.getLast? with
    | some moved, some lastv =>
      { num_components := p.num_components - 1
        sparse_array := ((p.sparse_array.set moved ((p.sparse_at e).toNat : Int)).set e (-1))
        packed_array := ((p.packed_array.set (p.sparse_at e).toNat moved).dropLast)
        component_array := ((p.component_array.set (p.sparse_at e).toNat lastv).dropLast) }
    | _, _ => p
  else
    p

theorem sparse_in_range (p : ComponentPool G) (e : Nat) (h : p.sparse_at e ≠ -1) :
    e < p.sparse_array.length := by
  by_contra hc
  apply h
  unfold sparse_at
  rw [List.getD_eq_getElem?_getD, List.getElem?_eq_none (by omega)]
  rfl

end ComponentPool

/-- C9: Removing the component of an entity `e` that is present but does
not occupy the last dense slot shrinks both dense arrays by one, makes `e`
absent, leaves every other entity's membership unchanged, and re-points the
sparse entry of the entity moved from the last slot at `e`'s old slot, where
that entity is now stored. -/
theorem removal_compaction {G : Type} (p : ComponentPool G) (h : ComponentPool.Inv p)
    (e : Nat) (he : p.has_component e = true)
    (hnl : (p.sparse_at e).toNat ≠ p.packed_array.length - 1) :
    (p.remove_component e).packed_array.length = p.packed_array.length - 1 ∧
    (p.remove_component e).component_array.length = p.packed_array.length - 1 ∧
    (p.remove_component e).has_component e = false ∧
    (∀ x, x ≠ e → (p.remove_component e).has_component x = p.has_component x) ∧
    (∀ m, p.packed_array.getLast? = some m →
      (p.remove_component e).sparse_at m = ((p.sparse_at e).toNat : Int) ∧
      (p.remove_component e).packed_array[(p.sparse_at e).toNat]? = some m) := by
  obtain ⟨hnum, hcomp, hcount, hfwd, hrev⟩ := h
  have habs : p.sparse_at e ≠ -1 := by
    unfold ComponentPool.has_component at he
    simpa using he
  obtain ⟨hge, hpt⟩ := hfwd e habs
  have hidx : (p.sparse_at e).toNat < p.packed_array.length := by
    by_contra hc
    rw [List.getElem?_eq_none (by omega)] at hpt
    simp at hpt
  obtain ⟨m, hm⟩ : ∃ m, p.packed_array.getLast? = some m := by
    rw [List.getLast?_eq_getElem?, List.getElem?_eq_getElem (by omega)]
    exact ⟨_, rfl⟩
  obtain ⟨lv, hlv⟩ : ∃ lv, p.component_array.getLast? = some lv := by
    rw [List.getLast?_eq_getElem?, List.getElem?_eq_getElem (by omega)]
    exact ⟨_, rfl⟩
  have hm9 : p.packed_array[p.packed_array.length - 1]? = some m := by
    rw [← List.getLast?_eq_getElem?]
    exact hm
  have hsm : p.sparse_at m = ((p.packed_array.length - 1 : Nat) : Int) :=
    hrev (p.packed_array.length - 1) m hm9
  have hmne : m ≠ e := by
    intro hc
    rw [hc] at hsm
    apply hnl
    rw [hsm]
    exact Int.toNat_ofNat _
  have he_lt : e < p.sparse_array.length := ComponentPool.sparse_in_range p e habs
  have hm_lt : m < p.sparse_array.length := by
    apply ComponentPool.sparse_in_range
    rw [hsm]
    omega
  have hq : p.remove_component e = ComponentPool.mk (p.num_components - 1)
      ((p.sparse_array.set m ((p.sparse_at e).toNat : Int)).set e (-1))
      ((p.packed_array.set (p.sparse_at e).toNat m).dropLast)
      ((p.component_array.set (p.sparse_at e).toNat lv).dropLast) := by
    unfold ComponentPool.remove_component
    rw [if_pos he, hm, hlv]
  refine ⟨?_, ?_, ?_, ?_, ?_⟩
  · rw [hq]
    simp [List.length_dropLast, List.length_set]
  · rw [hq]
    simp [List.length_dropLast, List.length_set, hcomp]
  · rw [hq]
    simp only [ComponentPool.has_component, ComponentPool.sparse_at,
      List.getD_eq_getElem?_getD]
    rw [List.getElem?_set_self (by rw [List.length_set]; exact he_lt)]
    rfl
  · intro x hx
    rw [hq]
    simp only [ComponentPool.has_component, ComponentPool.sparse_at,
      List.getD_eq_getElem?_getD]
    rw [List.getElem?_set_ne (fun hc => hx hc.symm)]
    by_cases hxm : x = m
    · subst hxm
      rw [List.getElem?_set_self hm_lt]
      have hb1 : (((p.sparse_at e).toNat : Int) != -1) = true := by
        simp only [bne_iff_ne, ne_eq]
        omega
      have hb2 : (p.sparse_array[x]?.getD (-1) != -1) = true := by
        rw [← List.getD_eq_getElem?_getD]
        have h9 : p.sparse_array.getD x (-1) =
            ((p.packed_array.length - 1 : Nat) : Int) := hsm
        rw [h9]
        simp only [bne_iff_ne, ne_eq]
        omega
      rw [hb2]
      exact hb1
    · rw [List.getElem?_set_ne (fun hc => hxm hc.symm)]
  · intro m' hm'
    have hmm : m' = m := by
      rw [hm] at hm'
      injection hm'
      omega
    subst hmm
    constructor
    · rw [hq]
      simp only [ComponentPool.sparse_at, List.getD_eq_getElem?_getD]
      rw [List.getElem?_set_ne (fun hc => hmne hc.symm), List.getElem?_set_self hm_lt]
      rfl
    · rw [hq]
      rw [List.getElem?_dropLast]
      rw [if_pos (by rw [List.length_set]; omega)]
      rw [List.getElem?_set_self hidx]

/-- Witness for `removal_compaction`: removing entity `3`'s component from the
two-entity pool of the repository's `assigning_component_updates_component_pool`
test; `3` sits in slot 0, not the last slot. -/
theorem removal_compaction_witness :
    ((ComponentPool.new_with_entity 3 (32 : Int)).assign_component 6 28).has_component 3 =
      true ∧
    ((((ComponentPool.new_with_entity 3 (32 : Int)).assign_component 6
        28).sparse_at 3).toNat ≠
      ((ComponentPool.new_with_entity 3 (32 : Int)).assign_component 6
        28).packed_array.length - 1) ∧
    ((((ComponentPool.new_with_entity 3 (32 : Int)).assign_component 6
        28).remove_component 3).packed_array.length =
      ((ComponentPool.new_with_entity 3 (32 : Int)).assign_component 6
        28).packed_array.length - 1) :=
  ⟨by decide, by decide,
    (removal_compaction ((ComponentPool.new_with_entity 3 (32 : Int)).assign_component 6 28)
      (ComponentPool.Inv_assign _ (ComponentPool.Inv_new 3 (32 : Int)) 6 28) 3
      (by decide) (by decide)).1⟩

end Ignition
